import Mathlib

/-!
Shallow embedding of the job dispatch and validator-channel coordination
subsystem of the compute-horde facilitator (Django app under
`src/app/src/project/core/`): the data model (`models.py`), the
validator/miner selection algorithm (`Job.select_validator`,
`Job.select_miner`), job completion (`Job.is_completed`,
`Job.wait_completed`), the websocket consumer handlers (`consumers.py`)
and data eviction (`eviction.py`).

Timestamps are modelled as integers (seconds); durations from the source
are converted to seconds: the 3 minute channel liveness window is 180 s,
`Job.JOB_TIMEOUT = timedelta(minutes=5, seconds=30)` is 330 s, the 7 day
signature-info retention period is 604800 s.
-/

namespace Facilitator

/-- Seconds in the connection liveness window (`timedelta(minutes=3)` in
`Job.select_validator`, models.py line 267). -/
def HEARTBEAT_WINDOW : Int := 180

/-- `Job.JOB_TIMEOUT = timedelta(minutes=5, seconds=30)` (models.py line 183),
in seconds. -/
def JOB_TIMEOUT : Int := 330

/-- The hardcoded debug hotkey special-cased in both `select_validator`
(models.py line 294) and `select_miner` (models.py line 354). -/
def DEBUG_SS58 : String := "5HBVrFGy6oYhhh71m9fFGYD7zbKyAeHnWN8i8s9fJTBMCtEE"

/-- A row of the `Validator` table (models.py: `AbstractNode` + `Validator`). -/
structure Validator where
  id : Nat
  ss58_address : String
  is_active : Bool
  version : String := ""
  runner_version : String := ""
  deriving Repr, DecidableEq

/-- A row of the `Miner` table (models.py: `AbstractNode` + `Miner`). -/
structure Miner where
  id : Nat
  ss58_address : String
  is_active : Bool
  deriving Repr, DecidableEq

/-- A row of the `Channel` table (models.py lines 152-174): associates one
live websocket channel name with a validator, with a heartbeat timestamp. -/
structure Channel where
  name : String
  validator_id : Nat
  last_heartbeat : Int
  deriving Repr, DecidableEq

/-- `JobStatus.Status` (models.py lines 511-516). -/
inductive Status where
  | failed
  | rejected
  | sent
  | accepted
  | completed
  deriving Repr, DecidableEq

/-- The integer value of each status (FAILED=-2 ... COMPLETED=2). -/
def Status.value : Status → Int
  | .failed => -2
  | .rejected => -1
  | .sent => 0
  | .accepted => 1
  | .completed => 2

/-- `JobStatus.FINAL_STATUS_VALUES` (models.py lines 518-522). -/
def FINAL_STATUS_VALUES : List Status := [.completed, .rejected, .failed]

/-- A row of the `Job` table, restricted to the fields dispatch and
selection read (models.py lines 182-219). `miner_id` is `none` for
signature-targeted jobs. -/
structure JobRow where
  uuid : Nat
  validator_id : Nat
  miner_id : Option Nat
  created_at : Int
  deriving Repr, DecidableEq

/-- A row of the `JobStatus` table (models.py lines 510-533). -/
structure StatusRow where
  job_uuid : Nat
  status : Status
  created_at : Int
  deriving Repr, DecidableEq

/-- `UserPreferences` (models.py lines 128-149), with the many-to-many
preference sets flattened to id lists. -/
structure UserPreferences where
  validators : List Nat
  miners : List Nat
  exclusive : Bool
  deriving Repr, DecidableEq

/-- The database state read by selection: all validators, miners, live
channels, jobs and job statuses. -/
structure Db where
  validators : List Validator
  miners : List Miner
  channels : List Channel
  jobs : List JobRow
  statuses : List StatusRow
  deriving Repr, DecidableEq

/-- The inputs of a job-creation request that selection reads: the optional
target validator hotkey, whether verified signature-info accompanies the
request (`Job.signature_info`), and the requesting user's preferences
(`none` when `UserPreferences.DoesNotExist`). -/
structure JobRequest where
  target_validator_hotkey : Option String
  has_signature_info : Bool
  prefs : Option UserPreferences
  deriving Repr, DecidableEq

/-- Errors raised by `Job.select_validator`: `ValueError("Request must be
signed when target_validator_hotkey is set")` and `Validator.DoesNotExist`. -/
inductive SelectValidatorError where
  | signatureRequired
  | validatorNotFound
  deriving Repr, DecidableEq

/-- Errors raised by `Job.select_miner`: `Miner.DoesNotExist`. -/
inductive SelectMinerError where
  | minerNotFound
  deriving Repr, DecidableEq

/-- Ids of validators with a channel whose `last_heartbeat >= now - 3 minutes`
(models.py lines 266-270). -/
def connectedValidatorIds (channels : List Channel) (now : Int) : List Nat :=
  (channels.filter fun c => now - HEARTBEAT_WINDOW ≤ c.last_heartbeat).map (·.validator_id)

/-- Preference narrowing of the connected-validator id set
(models.py lines 283-290): when the user has a non-empty preferred-validator
set, and its intersection with the connected set is non-empty or the
preference is exclusive, narrow to the intersection. -/
def narrowValidatorIds (ids : List Nat) (prefs : Option UserPreferences) : List Nat :=
  match prefs with
  | none => ids
  | some p =>
    if p.validators.isEmpty then ids
    else
      let available := ids.filter fun i => p.validators.contains i
      if !available.isEmpty || p.exclusive then available else ids

/-- `Validator.objects.filter(ss58_address=addr).first()` in table order. -/
def findValidator (validators : List Validator) (addr : String) : Option Validator :=
  validators.find? fun v => v.ss58_address = addr

/-- Comparison of last-job-time keys: `asc(nulls_first=True)`
(models.py line 304) — a validator with no jobs sorts before every other. -/
def keyLe : Option Int → Option Int → Bool
  | none, _ => true
  | some _, none => false
  | some a, some b => a ≤ b

/-- First element of the list minimal for `keyLe ∘ key` (earliest in list
order among ties), mirroring a deterministic read of the database's
`order_by(...)[0]` / stable-sort-then-head. -/
def minBy (key : α → Option Int) : List α → Option α
  | [] => none
  | x :: xs =>
    match minBy key xs with
    | none => some x
    | some y => if keyLe (key x) (key y) then some x else some y

/-- Maximum of a list of timestamps, `none` on the empty list. -/
def maxTime : List Int → Option Int
  | [] => none
  | t :: ts =>
    match maxTime ts with
    | none => some t
    | some m => some (max t m)

/-- `Max("jobs__created_at")` annotation for a validator
(`AbstractNodeQuerySet.with_last_job_time`, models.py lines 86-88). -/
def lastJobTime (jobs : List JobRow) (vid : Nat) : Option Int :=
  maxTime ((jobs.filter fun j => j.validator_id = vid).map (·.created_at))

/-- The candidate validators of the non-targeted selection path:
connected, narrowed by user preferences
(`Validator.objects.filter(pk__in=validator_ids)`, models.py lines 299-302). -/
def candidateValidators (db : Db) (req : JobRequest) (now : Int) : List Validator :=
  db.validators.filter fun v =>
    (narrowValidatorIds (connectedValidatorIds db.channels now) req.prefs).contains v.id

/-- `Job.select_validator` (models.py lines 257-310). -/
def select_validator (db : Db) (req : JobRequest) (now : Int) :
    Except SelectValidatorError Validator :=
  let validator_ids := connectedValidatorIds db.channels now
  match req.target_validator_hotkey with
  | some target =>
    -- models.py lines 273-280: targeted dispatch requires signature-info;
    -- the target must exist and be in the connected set (is_active is not checked)
    if !req.has_signature_info then .error .signatureRequired
    else
      match findValidator db.validators target with
      | some v => if validator_ids.contains v.id then .ok v else .error .validatorNotFound
      | none => .error .validatorNotFound
  | none =>
    let validator_ids := narrowValidatorIds validator_ids req.prefs
    -- models.py lines 293-297: the debug validator is returned whenever connected
    match findValidator db.validators DEBUG_SS58 with
    | some dv =>
      if validator_ids.contains dv.id then .ok dv
      else
        match minBy (fun v => lastJobTime db.jobs v.id) (candidateValidators db req now) with
        | some v => .ok v
        | none => .error .validatorNotFound
    | none =>
      match minBy (fun v => lastJobTime db.jobs v.id) (candidateValidators db req now) with
      | some v => .ok v
      | none => .error .validatorNotFound

/-- Insert a job into a newest-first list, keeping the list sorted by
`created_at` descending (new element placed before equal timestamps it
does not precede; database tie order is arbitrary). -/
def insertDesc (j : JobRow) : List JobRow → List JobRow
  | [] => [j]
  | x :: xs => if x.created_at ≤ j.created_at then j :: x :: xs else x :: insertDesc j xs

/-- Sort jobs by `created_at` descending (`order_by("-created_at")`). -/
def sortDesc (jobs : List JobRow) : List JobRow :=
  jobs.foldr insertDesc []

/-- The 10 most recently created jobs of a miner, newest first
(the `last_jobs_subquery` prefetch in `Job.select_miner`,
models.py lines 320-336). -/
def last10 (jobs : List JobRow) (mid : Nat) : List JobRow :=
  (sortDesc (jobs.filter fun j => j.miner_id = some mid)).take 10

/-- The most recently created `JobStatus` row of a job
(`Job.statuses_ordered[-1]`, models.py lines 384-391: statuses sorted
ascending by `created_at`, last taken; on ties the later row in table
order wins, as Python's stable sort keeps it last).
`none` when the job has no status rows (where the source raises
`IndexError`; a persisted job always has one, see `createJob_status_exists`). -/
def currentStatus (statuses : List StatusRow) (uuid : Nat) : Option StatusRow :=
  (statuses.filter fun s => s.job_uuid = uuid).foldl
    (fun best s =>
      match best with
      | none => some s
      | some b => if b.created_at ≤ s.created_at then some s else some b)
    none

/-- `Job.is_completed` (models.py lines 393-394):
`self.status.status in JobStatus.FINAL_STATUS_VALUES or self.created_at < now() - self.JOB_TIMEOUT`,
as an `Option` to reflect that `self.status` is undefined (raises) when the
job has no status rows. -/
def is_completed? (statuses : List StatusRow) (j : JobRow) (now : Int) : Option Bool :=
  (currentStatus statuses j.uuid).map fun s =>
    FINAL_STATUS_VALUES.contains s.status || decide (j.created_at < now - JOB_TIMEOUT)

/-- `Job.is_completed`, totalised: a job with no status rows counts as not
completed (unreachable for persisted jobs). -/
def is_completed (statuses : List StatusRow) (j : JobRow) (now : Int) : Bool :=
  (is_completed? statuses j now).getD false

/-- Eligibility test in `Job.select_miner` (models.py line 339): all of the
miner's 10 most recent jobs are completed. -/
def minerEligible (jobs : List JobRow) (statuses : List StatusRow) (m : Miner) (now : Int) : Bool :=
  (last10 jobs m.id).all fun j => is_completed statuses j now

/-- Sort key of `Job.select_miner` (models.py lines 357-359):
`jobs[0].created_at` of the prefetched newest-first last 10 jobs, with
`datetime.min` (modelled by `none`, which `keyLe` sorts first) when the
miner has no jobs. -/
def minerSortKey (jobs : List JobRow) (mid : Nat) : Option Int :=
  ((last10 jobs mid).head?).map (·.created_at)

/-- Lines 323-339 of models.py: the active miners whose 10 most recent
jobs are all completed. -/
def eligibleMiners (db : Db) (now : Int) : List Miner :=
  (db.miners.filter (·.is_active)).filter fun m => minerEligible db.jobs db.statuses m now

/-- Lines 342-348 of models.py: preference narrowing of the eligible
miner list. -/
def narrowedMiners (db : Db) (req : JobRequest) (now : Int) : List Miner :=
  match req.prefs with
  | none => eligibleMiners db now
  | some p =>
    if p.miners.isEmpty then eligibleMiners db now
    else
      let available := (eligibleMiners db now).filter fun (m : Miner) => p.miners.contains m.id
      if !available.isEmpty || p.exclusive then available else eligibleMiners db now

/-- `Job.select_miner` (models.py lines 312-360). -/
def select_miner (db : Db) (req : JobRequest) (now : Int) :
    Except SelectMinerError Miner :=
  let miners := narrowedMiners db req now
  -- lines 350-351
  if miners.isEmpty then .error .minerNotFound
  else
    -- lines 353-355: debug miner short-circuit
    match miners.find? (fun (m : Miner) => m.ss58_address = DEBUG_SS58) with
    | some m => .ok m
    | none =>
      -- lines 356-360: stable ascending sort by last-job time, head taken
      match minBy (fun (m : Miner) => minerSortKey db.jobs m.id) miners with
      | some m => .ok m
      | none => .error .minerNotFound

/-! ## Websocket consumer (`consumers.py`) -/

/-- Per-connection state: `self.scope["ss58_address"]`, set on successful
authentication (`consumers.py` line 162). -/
structure ConnState where
  ss58_address : Option String
  deriving Repr, DecidableEq

/-- Outbound `Response` (success, or error with its `type` discriminators). -/
inductive Resp where
  | success
  | error (types : List String)
  deriving Repr, DecidableEq

/-- Close codes (`CloseCode`, consumers.py lines 24-26). -/
def INVALID_SIGNATURE : Nat := 3000
def NOT_FOUND : Nat := 3001

/-- Result of one consumer message handler: the database and connection
state afterwards, the response sent (if any) and the close code used to
close the websocket (if any). -/
structure HandlerResult where
  db : Db
  conn : ConnState
  resp : Option Resp
  closeCode : Option Nat
  deriving Repr, DecidableEq

/-- `V0AuthenticationRequest` as the handler reads it: the claimed hotkey
and the outcome of `message.verify_signature()`. -/
structure AuthRequest where
  ss58_address : String
  signature_valid : Bool
  deriving Repr, DecidableEq

/-- `ValidatorConsumer.connect_channel_to_validator` (consumers.py
lines 72-85): create a `Channel` row for this connection and
opportunistically update the validator's version strings from the
handshake headers. `Channel.name` is unique; `acreate` with a duplicate
name raises, modelled as `none`. -/
def connect_channel_to_validator (db : Db) (v : Validator) (channelName : String)
    (headers : List (String × String)) (now : Int) : Option Db :=
  if db.channels.any fun c => c.name = channelName then none
  else
    let db := { db with channels := db.channels ++ [⟨channelName, v.id, now⟩] }
    let version := (headers.find? fun h => h.1 = "x-validator-version").map (·.2)
    let runner_version := (headers.find? fun h => h.1 = "x-validator-runner-version").map (·.2)
    if version.isSome || runner_version.isSome then
      some { db with
        validators := db.validators.map fun w =>
          if w.id = v.id then
            { w with
              version := version.getD w.version,
              runner_version := runner_version.getD w.runner_version }
          else w }
    else some db

/-- `ValidatorConsumer.authenticate` (consumers.py lines 117-171).
`none` models an unhandled exception (duplicate channel name). -/
def authenticate (db : Db) (conn : ConnState) (msg : AuthRequest)
    (channelName : String) (headers : List (String × String)) (now : Int) :
    Option HandlerResult :=
  -- lines 123-132: second auth attempt on an authenticated connection
  if conn.ss58_address.isSome then
    some ⟨db, conn, some (.error ["auth.already_authenticated"]), none⟩
  else
    -- line 134: known active validator lookup
    match db.validators.find? fun v => v.ss58_address = msg.ss58_address ∧ v.is_active with
    | none =>
      some ⟨db, conn, some (.error ["auth.validator_not_found"]), some NOT_FOUND⟩
    | some v =>
      -- lines 150-160: signature check
      if !msg.signature_valid then
        some ⟨db, conn, some (.error ["auth.signature_invalid"]), some INVALID_SIGNATURE⟩
      else
        -- lines 162-171
        match connect_channel_to_validator db v channelName headers now with
        | none => none
        | some db =>
          some ⟨db, { ss58_address := some msg.ss58_address }, some .success, none⟩

/-- `JobStatusUpdate` message as the handler reads it. The schema
(`schemas.py` lines 130-138) only admits the four non-SENT statuses;
the handler maps the string to `JobStatus.Status`. -/
structure StatusUpdateMsg where
  uuid : Nat
  status : Status
  deriving Repr, DecidableEq

/-- `ValidatorConsumer.job_status_update` (consumers.py lines 173-213),
including the `require_authentication` wrapper (lines 29-48).
The `unique_job_status` constraint on `(job, status)` (models.py
lines 529-533) makes the insert fail with `IntegrityError`, which the
handler reports as an error response; no branch closes the connection. -/
def job_status_update (db : Db) (conn : ConnState) (msg : StatusUpdateMsg) (now : Int) :
    HandlerResult :=
  if conn.ss58_address.isNone then
    ⟨db, conn, some (.error ["auth.not_authenticated"]), none⟩
  else if !(db.jobs.any fun j => j.uuid = msg.uuid) then
    ⟨db, conn, some (.error ["job.not_found"]), none⟩
  else if db.statuses.any fun s => s.job_uuid = msg.uuid ∧ s.status = msg.status then
    ⟨db, conn, some (.error ["job.integrity_error"]), none⟩
  else
    ⟨{ db with statuses := db.statuses ++ [⟨msg.uuid, msg.status, now⟩] },
      conn, some .success, none⟩

/-! ## Job creation (`Job.save`, models.py lines 237-255) -/

inductive CreateJobError where
  | signatureRequired
  | validatorNotFound
  | minerNotFound
  deriving Repr, DecidableEq

/-- `Job.save` for a new job, restricted to what the dispatch path
persists: inside one atomic transaction, select a validator (and a miner
unless the job is validator-targeted), insert the `Job` row, and
(`send_to_validator`, models.py lines 482-492) push the payload to each
of the validator's channels — zero or more — and unconditionally insert
the initial SENT `JobStatus` row. -/
def createJob (db : Db) (req : JobRequest) (uuid : Nat) (now : Int) :
    Except CreateJobError Db :=
  match select_validator db req now with
  | .error .signatureRequired => .error .signatureRequired
  | .error .validatorNotFound => .error .validatorNotFound
  | .ok v =>
    match req.target_validator_hotkey with
    | some _ =>
      -- models.py lines 249-252: targeted job, miner is None
      .ok { db with
        jobs := db.jobs ++ [⟨uuid, v.id, none, now⟩],
        statuses := db.statuses ++ [⟨uuid, .sent, now⟩] }
    | none =>
      match select_miner db req now with
      | .error .minerNotFound => .error .minerNotFound
      | .ok m =>
        .ok { db with
          jobs := db.jobs ++ [⟨uuid, v.id, some m.id, now⟩],
          statuses := db.statuses ++ [⟨uuid, .sent, now⟩] }

/-! ## `Job.wait_completed` (models.py lines 494-507)

The tenacity decorator retries on `JobNotFinishedError` with
`wait_fixed(3)` and `stop_after_delay(JOB_TIMEOUT)`, `reraise=True`: an
attempt at elapsed time `t` re-fetches the job's statuses, invokes the
`on_check` hook, returns the current status if the job is completed, and
otherwise raises; tenacity then stops (re-raising `JobNotFinishedError`)
if the elapsed time has reached the timeout, else sleeps 3 s and retries.
`fetch t` gives the job's status rows as re-fetched at elapsed time `t`. -/

/-- One pass of the wait loop from elapsed time `t` (a multiple of 3).
Returns the final outcome (`.ok` current status or `.error ()` for
`JobNotFinishedError`) together with the elapsed times at which the
`on_check` hook was invoked, in order. -/
def wait_loop (job : JobRow) (fetch : Nat → List StatusRow)
    (start : Int) (t : Nat) : Except Unit StatusRow × List Nat :=
  let statuses := fetch t
  if is_completed statuses job (start + t) then
    ((currentStatus statuses job.uuid).elim (.error ()) .ok, [t])
  else if 330 ≤ t then
    (.error (), [t])
  else
    let r := wait_loop job fetch start (t + 3)
    (r.1, t :: r.2)
termination_by 330 - t

/-- `Job.wait_completed`: run the poll loop from elapsed time 0. -/
def wait_completed (job : JobRow) (fetch : Nat → List StatusRow)
    (start : Int) : Except Unit StatusRow × List Nat :=
  wait_loop job fetch start 0

/-! ## Eviction (`eviction.py`) -/

/-- `SIGNATURE_INFO_RETENTION_PERIOD = timedelta(days=7)`
(eviction.py line 23), in seconds. -/
def SIGNATURE_INFO_RETENTION_PERIOD : Int := 604800

/-- A row of the `SignatureInfo` table (models.py lines 60-74, migration
0022): `signature_type`, `signatory`, `timestamp_ns`, `signature`,
`signed_payload` — there is no `created_at` column. -/
structure SignatureInfoRow where
  id : Nat
  signature_type : String
  signatory : String
  timestamp_ns : Int
  deriving Repr, DecidableEq

/-- The column names of the `SignatureInfo` table. -/
def signatureInfoColumns : List String :=
  ["id", "signature_type", "signatory", "timestamp_ns", "signature", "signed_payload"]

/-- `evict_signature_info` (eviction.py lines 53-55) runs
`SignatureInfo.objects.filter(created_at__lt=cutoff).delete()`. The ORM
resolves the filter's column name against the table before touching any
row and raises `FieldError` when it does not exist; `SignatureInfo` has no
`created_at` column, so the first branch below is dead and the call always
fails, deleting nothing. -/
def evict_signature_info (rows : List SignatureInfoRow) (_now : Int) :
    Except String (List SignatureInfoRow) :=
  if signatureInfoColumns.contains "created_at" then
    .ok rows
  else
    .error "FieldError: cannot resolve keyword created_at into field"

/-! ## Concrete fixtures used in counterexamples and witnesses -/

/-- A live channel for validator 1 (heartbeat at time 1000). -/
def chA : Channel := ⟨"chA", 1, 1000⟩
/-- A live channel for validator 2 (heartbeat at time 1000). -/
def chB : Channel := ⟨"chB", 2, 1000⟩

/-- Validator A: known, active, with one past job. -/
def valA : Validator := ⟨1, "addrA", true, "", ""⟩
/-- Validator B: known, active, never used. -/
def valB : Validator := ⟨2, "addrB", true, "", ""⟩
/-- A validator carrying the hardcoded debug hotkey. -/
def valDebug : Validator := ⟨1, DEBUG_SS58, true, "", ""⟩
/-- An inactive validator that still has a live channel. -/
def valInactive : Validator := ⟨1, "addrT", false, "", ""⟩

/-- A past job of validator 1, created at time 100. -/
def jobA : JobRow := ⟨7, 1, none, 100⟩
/-- The SENT status row of `jobA`. -/
def sentA : StatusRow := ⟨7, .sent, 100⟩

/-- Two connected validators, A with one job, B never used. -/
def dbAB : Db := ⟨[valA, valB], [], [chA, chB], [jobA], [sentA]⟩
/-- Same state, but the used validator is the debug validator. -/
def dbDebugB : Db := ⟨[valDebug, valB], [], [chA, chB], [jobA], [sentA]⟩
/-- One inactive but connected validator. -/
def dbInactive : Db := ⟨[valInactive], [], [chA], [], []⟩

/-- A plain request: no target, no signature, no preferences. -/
def plainRequest : JobRequest := ⟨none, false, none⟩
/-- A signed request targeting `addrT`. -/
def targetTRequest : JobRequest := ⟨some "addrT", true, none⟩
/-- A signed request targeting `addrA`. -/
def targetARequest : JobRequest := ⟨some "addrA", true, none⟩

/-- A miner with one recent, still incomplete job. -/
def minerBusy : Miner := ⟨1, "minerBusy", true⟩
/-- A miner with no jobs at all. -/
def minerIdle : Miner := ⟨2, "minerIdle", true⟩
/-- The incomplete job of `minerBusy` (SENT at time 900). -/
def jobBusy : JobRow := ⟨8, 1, some 1, 900⟩
/-- The SENT status row of `jobBusy`. -/
def sentBusy : StatusRow := ⟨8, .sent, 900⟩
/-- Two active miners, one busy and one idle, plus validator A connected. -/
def dbMiners : Db := ⟨[valA], [minerBusy, minerIdle], [chA], [jobBusy], [sentBusy]⟩

/-- The `unique_job_status` constraint (models.py lines 529-533):
at most one `JobStatus` row per `(job, status)` pair. -/
def uniqueJobStatusPairs (l : List StatusRow) : Prop :=
  l.Pairwise fun a b => ¬(a.job_uuid = b.job_uuid ∧ a.status = b.status)

/-- A connection already authenticated as validator A. -/
def connAuth : ConnState := ⟨some "addrA"⟩

/-- The database state after creating job 99 on `dbMiners` at time 1000. -/
def dbMinersAfter : Db :=
  ⟨[valA], [minerBusy, minerIdle], [chA],
    [jobBusy, ⟨99, 1, some 2, 1000⟩], [sentBusy, ⟨99, .sent, 1000⟩]⟩

/-! ## Helper lemmas -/

theorem keyLe_refl (a : Option Int) : keyLe a a = true := by
  cases a <;> simp [keyLe]

theorem keyLe_total (a b : Option Int) : keyLe a b = true ∨ keyLe b a = true := by
  cases a <;> cases b <;> simp [keyLe]
  omega

theorem keyLe_trans {a b c : Option Int} (h1 : keyLe a b = true) (h2 : keyLe b c = true) :
    keyLe a c = true := by
  cases a <;> cases b <;> cases c <;> simp [keyLe] at *
  omega

theorem minBy_eq_none {α} {key : α → Option Int} {l : List α} (h : minBy key l = none) :
    l = [] := by
  cases l with
  | nil => rfl
  | cons a l =>
    rw [minBy] at h
    cases hm : minBy key l <;> rw [hm] at h <;> simp at h
    split at h <;> simp at h

theorem minBy_mem {α} {key : α → Option Int} {l : List α} {x : α}
    (h : minBy key l = some x) : x ∈ l := by
  induction l generalizing x with
  | nil => simp [minBy] at h
  | cons a l ih =>
    rw [minBy] at h
    cases hm : minBy key l with
    | none =>
      rw [hm] at h
      simp only [Option.some.injEq] at h
      subst h
      exact .head _
    | some y =>
      simp only [hm] at h
      by_cases hk : keyLe (key a) (key y) = true
      · rw [if_pos hk] at h
        simp only [Option.some.injEq] at h
        subst h
        exact .head _
      · rw [if_neg hk] at h
        simp only [Option.some.injEq] at h
        subst h
        exact .tail _ (ih hm)

theorem minBy_le {α} {key : α → Option Int} {l : List α} {x : α}
    (h : minBy key l = some x) : ∀ y ∈ l, keyLe (key x) (key y) = true := by
  induction l generalizing x with
  | nil => simp [minBy] at h
  | cons a l ih =>
    intro y hy
    rw [minBy] at h
    cases hm : minBy key l with
    | none =>
      rw [hm] at h
      simp only [Option.some.injEq] at h
      subst h
      cases minBy_eq_none hm
      rcases List.mem_singleton.mp hy with rfl
      exact keyLe_refl _
    | some z =>
      simp only [hm] at h
      by_cases hk : keyLe (key a) (key z) = true
      · rw [if_pos hk] at h
        simp only [Option.some.injEq] at h
        subst h
        rcases List.mem_cons.mp hy with rfl | hy
        · exact keyLe_refl _
        · exact keyLe_trans hk (ih hm y hy)
      · rw [if_neg hk] at h
        simp only [Option.some.injEq] at h
        subst h
        rcases List.mem_cons.mp hy with rfl | hy
        · rcases keyLe_total (key y) (key z) with hk2 | hk2
          · exact absurd hk2 hk
          · exact hk2
        · exact ih hm y hy

theorem narrowValidatorIds_subset {ids : List Nat} {prefs : Option UserPreferences} {i : Nat}
    (h : (narrowValidatorIds ids prefs).contains i = true) : ids.contains i = true := by
  cases prefs with
  | none => exact h
  | some p =>
    simp only [narrowValidatorIds] at h
    split at h
    · exact h
    · split at h
      · have hmem : i ∈ ids.filter fun j => p.validators.contains j := by
          simpa using h
        simpa using (List.mem_filter.mp hmem).1
      · exact h

theorem currentStatus_foldl_isSome (l : List StatusRow) (b : StatusRow) :
    (l.foldl
      (fun best s =>
        match best with
        | none => some s
        | some b => if b.created_at ≤ s.created_at then some s else some b)
      (some b)).isSome = true := by
  induction l generalizing b with
  | nil => rfl
  | cons s l ih =>
    simp only [List.foldl_cons]
    split <;> exact ih _

theorem currentStatus_isSome {statuses : List StatusRow} {uuid : Nat}
    (h : ∃ s ∈ statuses, s.job_uuid = uuid) :
    (currentStatus statuses uuid).isSome = true := by
  obtain ⟨s, hs, huuid⟩ := h
  have hmem : s ∈ statuses.filter fun s => s.job_uuid = uuid :=
    List.mem_filter.mpr ⟨hs, by simpa using huuid⟩
  rw [currentStatus]
  cases hfl : statuses.filter fun s => s.job_uuid = uuid with
  | nil => rw [hfl] at hmem; cases hmem
  | cons c cs =>
    simp only [List.foldl_cons]
    exact currentStatus_foldl_isSome cs c

/-! ## Claim theorems -/

/-- C1 (counterexample): the claim says a targeted request whose target is
inactive fails with `ValidatorNotFound`; but `select_validator` never checks
`is_active` on the targeted path, so a known, inactive, connected target is
returned successfully. -/
theorem select_validator_targeted_inactive_cex :
    valInactive.is_active = false ∧
    targetTRequest.target_validator_hotkey = some valInactive.ss58_address ∧
    targetTRequest.has_signature_info = true ∧
    (connectedValidatorIds dbInactive.channels 1000).contains valInactive.id = true ∧
    select_validator dbInactive targetTRequest 1000 = .ok valInactive :=
  ⟨rfl, rfl, rfl, by decide, rfl⟩

/-- C1 (amended): for a job-creation request with a target-validator
override, selection fails with the signature-required error when the request
carries no signature-info; otherwise it returns the targeted validator
exactly when that validator is known and in the connected set (whether or
not it is active), and fails with `Validator.DoesNotExist` in every other
case (unknown target or target not connected). -/
theorem select_validator_targeted_spec (db : Db) (req : JobRequest) (now : Int) (target : String)
    (htarget : req.target_validator_hotkey = some target) :
    (req.has_signature_info = false →
      select_validator db req now = .error .signatureRequired) ∧
    (req.has_signature_info = true →
      (∀ v, select_validator db req now = .ok v ↔
        (findValidator db.validators target = some v ∧
          (connectedValidatorIds db.channels now).contains v.id = true)) ∧
      (findValidator db.validators target = none →
        select_validator db req now = .error .validatorNotFound) ∧
      (∀ v, findValidator db.validators target = some v →
        (connectedValidatorIds db.channels now).contains v.id = false →
        select_validator db req now = .error .validatorNotFound)) := by
  refine ⟨fun hsig => ?_, fun hsig => ⟨fun v => ?_, fun hfv => ?_, fun v hfv hc => ?_⟩⟩
  · simp [select_validator, htarget, hsig]
  · cases hfv : findValidator db.validators target with
    | none =>
      simp [select_validator, htarget, hsig, hfv]
    | some w =>
      by_cases hc : (connectedValidatorIds db.channels now).contains w.id = true
      · simp only [select_validator, htarget, hsig, hfv, hc, Bool.not_true, Bool.false_eq_true,
          if_false, if_true]
        constructor
        · intro h
          cases h
          exact ⟨rfl, hc⟩
        · rintro ⟨hw, _⟩
          cases hw
          rfl
      · simp only [select_validator, htarget, hsig, hfv, Bool.not_true, Bool.false_eq_true,
          if_false]
        rw [if_neg hc]
        constructor
        · intro h
          cases h
        · rintro ⟨hw, hcv⟩
          cases hw
          exact absurd hcv hc
  · simp [select_validator, htarget, hsig, hfv]
  · simp only [select_validator, htarget, hsig, hfv, Bool.not_true, Bool.false_eq_true, if_false]
    rw [if_neg (show ¬((connectedValidatorIds db.channels now).contains v.id = true) by
      simp only [hc]
      exact Bool.false_ne_true)]

/-- C1 (witness): on a state with a known, connected target (validator A)
and a signed targeted request, the amended characterisation yields exactly
that validator. -/
theorem select_validator_targeted_spec_witness :
    targetARequest.target_validator_hotkey = some "addrA" ∧
    targetARequest.has_signature_info = true ∧
    select_validator dbAB targetARequest 1000 = .ok valA :=
  ⟨rfl, rfl,
    (((select_validator_targeted_spec dbAB targetARequest 1000 "addrA" rfl).2 rfl).1 valA).mpr
      ⟨by decide, by decide⟩⟩

/-- C3: a non-targeted job-creation request never selects a validator
outside the connected set: whatever the preferences, exclusivity flag or
the debug special case do, a returned validator has a channel whose last
heartbeat is within the 3-minute liveness window. -/
theorem select_validator_result_connected (db : Db) (req : JobRequest) (now : Int) (v : Validator)
    (htarget : req.target_validator_hotkey = none)
    (hok : select_validator db req now = .ok v) :
    (connectedValidatorIds db.channels now).contains v.id = true := by
  apply @narrowValidatorIds_subset (connectedValidatorIds db.channels now) req.prefs v.id
  simp only [select_validator, htarget] at hok
  split at hok
  next dv hdv =>
    split at hok
    next hc =>
      cases hok
      exact hc
    next =>
      split at hok
      next w hw =>
        cases hok
        have hmem := minBy_mem hw
        have := List.mem_filter.mp hmem
        simpa using this.2
      next => cases hok
  next =>
    split at hok
    next w hw =>
      cases hok
      have hmem := minBy_mem hw
      have := List.mem_filter.mp hmem
      simpa using this.2
    next => cases hok

/-- C3 (witness): on the two-validator state, plain selection returns
validator B, and B is indeed in the connected set. -/
theorem select_validator_result_connected_witness :
    select_validator dbAB plainRequest 1000 = .ok valB ∧
    (connectedValidatorIds dbAB.channels 1000).contains valB.id = true :=
  ⟨rfl, select_validator_result_connected dbAB plainRequest 1000 valB rfl rfl⟩

/-- C4 (counterexample): the claim says that whenever connected validator A
has a past job and connected validator B has never had one, a plain request
selects B; but when A carries the hardcoded debug hotkey the code returns A
unconditionally. -/
theorem select_validator_least_recent_cex :
    lastJobTime dbDebugB.jobs valDebug.id = some 100 ∧
    lastJobTime dbDebugB.jobs valB.id = none ∧
    (connectedValidatorIds dbDebugB.channels 1000).contains valDebug.id = true ∧
    (connectedValidatorIds dbDebugB.channels 1000).contains valB.id = true ∧
    plainRequest.target_validator_hotkey = none ∧
    plainRequest.prefs = none ∧
    select_validator dbDebugB plainRequest 1000 = .ok valDebug ∧
    valDebug ≠ valB :=
  ⟨rfl, rfl, by decide, by decide, rfl, rfl, rfl, by decide⟩

/-- C4 (amended): for a non-targeted request, if the debug-hotkey lookup
finds a validator whose id is in the (preference-narrowed) connected
candidate id set, that validator is returned unconditionally; otherwise —
the lookup finds nothing, or the found debug validator is not a candidate —
the selected validator belongs to the candidate set and has the least
recent last-job-creation-time among candidates, validators with no jobs
sorting first; in particular, with two connected candidates where A has a
past job and B has never had one, B is selected. -/
theorem select_validator_least_recent (db : Db) (req : JobRequest) (now : Int)
    (htarget : req.target_validator_hotkey = none) :
    (∀ dv, findValidator db.validators DEBUG_SS58 = some dv →
      (narrowValidatorIds (connectedValidatorIds db.channels now) req.prefs).contains dv.id =
        true →
      select_validator db req now = .ok dv) ∧
    ((∀ dv, findValidator db.validators DEBUG_SS58 = some dv →
        (narrowValidatorIds (connectedValidatorIds db.channels now) req.prefs).contains dv.id =
          false) →
      ∀ v, select_validator db req now = .ok v →
        v ∈ candidateValidators db req now ∧
        ∀ u ∈ candidateValidators db req now,
          keyLe (lastJobTime db.jobs v.id) (lastJobTime db.jobs u.id) = true) := by
  constructor
  · intro dv hdv hc
    simp only [select_validator, htarget, hdv]
    rw [if_pos hc]
  · intro hnodebug v hok
    simp only [select_validator, htarget] at hok
    cases hfd : findValidator db.validators DEBUG_SS58 with
    | none =>
      simp only [hfd] at hok
      cases hmin : minBy (fun u => lastJobTime db.jobs u.id) (candidateValidators db req now) with
      | some w =>
        simp only [hmin] at hok
        cases hok
        exact ⟨minBy_mem hmin, minBy_le hmin⟩
      | none => simp [hmin] at hok
    | some dv =>
      have hc := hnodebug dv hfd
      simp only [hfd, hc, Bool.false_eq_true, if_false] at hok
      cases hmin : minBy (fun u => lastJobTime db.jobs u.id) (candidateValidators db req now) with
      | some w =>
        simp only [hmin] at hok
        cases hok
        exact ⟨minBy_mem hmin, minBy_le hmin⟩
      | none => simp [hmin] at hok

/-- C4 (witness): on the debug-validator state the first branch returns the
debug validator; and the claim's scenario — connected validator A with a
past job, connected validator B never used, plain request — selects B, with
B's key minimal among the candidates. -/
theorem select_validator_least_recent_witness :
    select_validator dbDebugB plainRequest 1000 = .ok valDebug ∧
    select_validator dbAB plainRequest 1000 = .ok valB ∧
    valB ∈ candidateValidators dbAB plainRequest 1000 ∧
    (∀ u ∈ candidateValidators dbAB plainRequest 1000,
      keyLe (lastJobTime dbAB.jobs valB.id) (lastJobTime dbAB.jobs u.id) = true) := by
  have hnodebug : ∀ dv, findValidator dbAB.validators DEBUG_SS58 = some dv →
      (narrowValidatorIds (connectedValidatorIds dbAB.channels 1000)
        plainRequest.prefs).contains dv.id = false := by
    intro dv h
    rw [(rfl : findValidator dbAB.validators DEBUG_SS58 = (none : Option Validator))] at h
    exact Option.noConfusion h
  have hdbg := (select_validator_least_recent dbDebugB plainRequest 1000 rfl).1 valDebug rfl
    (by decide)
  have hmain := (select_validator_least_recent dbAB plainRequest 1000 rfl).2 hnodebug valB rfl
  exact ⟨hdbg, rfl, hmain.1, hmain.2⟩

/-- Helper: membership in the eligible miner list gives activity and
completed recent jobs. -/
theorem eligibleMiners_spec {db : Db} {now : Int} {m : Miner} (h : m ∈ eligibleMiners db now) :
    m.is_active = true ∧ minerEligible db.jobs db.statuses m now = true := by
  have h1 := List.mem_filter.mp h
  have h2 := List.mem_filter.mp h1.1
  exact ⟨h2.2, h1.2⟩

/-- Helper: preference narrowing only removes miners. -/
theorem narrowedMiners_subset {db : Db} {req : JobRequest} {now : Int} {m : Miner}
    (h : m ∈ narrowedMiners db req now) : m ∈ eligibleMiners db now := by
  simp only [narrowedMiners] at h
  split at h
  · exact h
  · split at h
    · exact h
    · split at h
      · exact (List.mem_filter.mp h).1
      · exact h

/-- C2: a selected miner is active and each of its 10 most recently created
jobs is completed (terminal current status or aged past the job timeout);
a miner with zero jobs is trivially eligible. -/
theorem select_miner_spec (db : Db) (req : JobRequest) (now : Int) :
    (∀ m, select_miner db req now = .ok m →
      m.is_active = true ∧
      ∀ j ∈ last10 db.jobs m.id, is_completed db.statuses j now = true) ∧
    (∀ m : Miner, db.jobs.filter (fun j => j.miner_id = some m.id) = [] →
      minerEligible db.jobs db.statuses m now = true) := by
  constructor
  · intro m hok
    have hmem : m ∈ narrowedMiners db req now := by
      simp only [select_miner] at hok
      split at hok
      · exact absurd hok (by simp)
      · split at hok
        next hfind =>
          cases hok
          exact List.mem_of_find?_eq_some hfind
        next =>
          split at hok
          next hmin =>
            cases hok
            exact minBy_mem hmin
          next => exact absurd hok (by simp)
    have hspec := eligibleMiners_spec (narrowedMiners_subset hmem)
    refine ⟨hspec.1, fun j hj => ?_⟩
    have hall := hspec.2
    rw [minerEligible, List.all_eq_true] at hall
    simpa using hall j hj
  · intro m hempty
    rw [minerEligible, last10, hempty]
    rfl

/-- C2 (witness): on the two-miner state the idle miner is selected; it is
active and its (empty) recent-job list is all-completed. -/
theorem select_miner_spec_witness :
    select_miner dbMiners plainRequest 1000 = .ok minerIdle ∧
    minerIdle.is_active = true ∧
    ∀ j ∈ last10 dbMiners.jobs minerIdle.id, is_completed dbMiners.statuses j 1000 = true :=
  ⟨rfl, ((select_miner_spec dbMiners plainRequest 1000).1 minerIdle rfl).1,
    ((select_miner_spec dbMiners plainRequest 1000).1 minerIdle rfl).2⟩

/-- C5: for a job with at least one status row, `is_completed` is true iff
the most recently created status is terminal or the job's age strictly
exceeds the 5.5-minute timeout; at age exactly equal to the timeout the age
condition is still false, one second past it the job counts as complete. -/
theorem is_completed_boundary (statuses : List StatusRow) (j : JobRow) (now : Int) (s : StatusRow)
    (h : currentStatus statuses j.uuid = some s) :
    (is_completed? statuses j now = some true ↔
      (s.status ∈ FINAL_STATUS_VALUES ∨ now - j.created_at > JOB_TIMEOUT)) ∧
    (s.status ∉ FINAL_STATUS_VALUES →
      is_completed? statuses j (j.created_at + JOB_TIMEOUT) = some false) ∧
    is_completed? statuses j (j.created_at + JOB_TIMEOUT + 1) = some true := by
  refine ⟨?_, fun hnf => ?_, ?_⟩
  · simp only [is_completed?, h, Option.map_some', Option.some.injEq, Bool.or_eq_true,
      decide_eq_true_eq]
    constructor
    · rintro (hc | hlt)
      · exact Or.inl (by simpa using hc)
      · exact Or.inr (by omega)
    · rintro (hmem | hgt)
      · exact Or.inl (by simpa using hmem)
      · exact Or.inr (by omega)
  · have h1 : FINAL_STATUS_VALUES.contains s.status = false := by
      simpa using hnf
    have h2 : ¬(j.created_at < j.created_at + JOB_TIMEOUT - JOB_TIMEOUT) := by
      simp only [JOB_TIMEOUT]
      omega
    simp only [is_completed?, h, Option.map_some', Option.some.injEq]
    simp [h2]
    exact hnf
  · simp only [is_completed?, h, Option.map_some', Option.some.injEq, Bool.or_eq_true,
      decide_eq_true_eq]
    refine Or.inr ?_
    simp only [JOB_TIMEOUT]
    omega

/-- C5 (witness): job A with only a SENT status is not complete at the
exact timeout boundary and complete one second past it. -/
theorem is_completed_boundary_witness :
    currentStatus [sentA] jobA.uuid = some sentA ∧
    sentA.status ∉ FINAL_STATUS_VALUES ∧
    is_completed? [sentA] jobA (jobA.created_at + JOB_TIMEOUT) = some false ∧
    is_completed? [sentA] jobA (jobA.created_at + JOB_TIMEOUT + 1) = some true :=
  ⟨rfl, by decide,
    (is_completed_boundary [sentA] jobA 0 sentA rfl).2.1 (by decide),
    (is_completed_boundary [sentA] jobA 0 sentA rfl).2.2⟩

/-- C6: on an authenticated connection, a status update whose `(job, status)`
pair already has a row fails with the integrity error response, leaves the
database unchanged (no second row) and does not close the connection; and
any status-update step preserves the at-most-one-row-per-pair invariant. -/
theorem job_status_update_integrity (db : Db) (conn : ConnState) (msg : StatusUpdateMsg)
    (now : Int) (a : String) (hauth : conn.ss58_address = some a) :
    ((db.jobs.any fun j => j.uuid = msg.uuid) = true →
      (∃ s ∈ db.statuses, s.job_uuid = msg.uuid ∧ s.status = msg.status) →
      job_status_update db conn msg now =
        ⟨db, conn, some (.error ["job.integrity_error"]), none⟩) ∧
    (uniqueJobStatusPairs db.statuses →
      uniqueJobStatusPairs (job_status_update db conn msg now).db.statuses) := by
  have hsome : conn.ss58_address.isNone = false := by rw [hauth]; rfl
  constructor
  · intro hjob hdup
    have hany : (db.statuses.any fun s => s.job_uuid = msg.uuid ∧ s.status = msg.status) = true := by
      obtain ⟨s, hs, h1, h2⟩ := hdup
      exact List.any_eq_true.mpr ⟨s, hs, by simp [h1, h2]⟩
    rw [job_status_update, hsome]
    simp only [Bool.false_eq_true, if_false, hjob, Bool.not_true, hany, if_true]
  · intro huniq
    rw [job_status_update, hsome]
    simp only [Bool.false_eq_true, if_false]
    split
    · exact huniq
    · split
      · exact huniq
      · next hdup =>
        show uniqueJobStatusPairs (db.statuses ++ [⟨msg.uuid, msg.status, now⟩])
        rw [uniqueJobStatusPairs] at huniq ⊢
        simp only [List.pairwise_append]
        refine ⟨huniq, List.pairwise_singleton _ _, ?_⟩
        intro s hs b hb
        rcases List.mem_singleton.mp hb with rfl
        intro hc
        exact hdup (List.any_eq_true.mpr ⟨s, hs, by simp [hc.1, hc.2]⟩)

/-- C6 (witness): a second COMPLETED update for job 7 is rejected with the
integrity error and the database is unchanged. -/
theorem job_status_update_integrity_witness :
    (job_status_update ⟨[], [], [], [⟨7, 1, none, 0⟩], [⟨7, .completed, 5⟩]⟩ connAuth ⟨7, .completed⟩ 10 =
      ⟨⟨[], [], [], [⟨7, 1, none, 0⟩], [⟨7, .completed, 5⟩]⟩, connAuth,
        some (.error ["job.integrity_error"]), none⟩) :=
  (job_status_update_integrity ⟨[], [], [], [⟨7, 1, none, 0⟩], [⟨7, .completed, 5⟩]⟩
      connAuth ⟨7, .completed⟩ 10 "addrA" rfl).1 (by decide)
    ⟨⟨7, .completed, 5⟩, by decide, rfl, rfl⟩

/-- C7: a second authentication request on an already-authenticated
connection gets the "already authenticated" error response, changes neither
the connection state nor the database, closes nothing, and leaves the
number of registered channels of every validator unchanged. -/
theorem authenticate_already_authenticated (db : Db) (conn : ConnState) (msg : AuthRequest)
    (channelName : String) (headers : List (String × String)) (now : Int) (a : String)
    (hauth : conn.ss58_address = some a) :
    authenticate db conn msg channelName headers now =
      some ⟨db, conn, some (.error ["auth.already_authenticated"]), none⟩ ∧
    ∀ vid : Nat,
      ((authenticate db conn msg channelName headers now).map
        fun r => (r.db.channels.filter fun c => c.validator_id = vid).length) =
      some (db.channels.filter fun c => c.validator_id = vid).length := by
  have hsome : conn.ss58_address.isSome = true := by rw [hauth]; rfl
  refine ⟨?_, fun vid => ?_⟩
  · rw [authenticate, if_pos hsome]
  · rw [authenticate, if_pos hsome, Option.map_some']

/-- C7 (witness): on a registry with exactly one channel for validator 1,
the second auth attempt leaves exactly one channel for validator 1. -/
theorem authenticate_already_authenticated_witness :
    authenticate dbAB connAuth ⟨"addrA", true⟩ "chNew" [] 1000 =
      some ⟨dbAB, connAuth, some (.error ["auth.already_authenticated"]), none⟩ ∧
    ((authenticate dbAB connAuth ⟨"addrA", true⟩ "chNew" [] 1000).map
      fun r => (r.db.channels.filter fun c => c.validator_id = 1).length) = some 1 :=
  ⟨(authenticate_already_authenticated dbAB connAuth ⟨"addrA", true⟩ "chNew" [] 1000 "addrA" rfl).1,
    by
      rw [(authenticate_already_authenticated dbAB connAuth ⟨"addrA", true⟩ "chNew" [] 1000
        "addrA" rfl).2 1]
      decide⟩

/-- Helper: the poll times of the wait loop started at a multiple of 3 are
`t, t+3, ...`, all within the timeout. -/
theorem wait_loop_polls (job : JobRow) (fetch : Nat → List StatusRow) (start : Int) (t : Nat)
    (h3 : t % 3 = 0) (ht : t ≤ 330) :
    ∃ k, 1 ≤ k ∧ t + 3 * (k - 1) ≤ 330 ∧
      (wait_loop job fetch start t).2 = (List.range k).map fun i => t + 3 * i := by
  rw [wait_loop]
  by_cases hc : is_completed (fetch t) job (start + t) = true
  · rw [if_pos hc]
    exact ⟨1, le_refl _, by omega, by simp [List.range_succ]⟩
  · rw [if_neg hc]
    by_cases hstop : 330 ≤ t
    · rw [if_pos hstop]
      exact ⟨1, le_refl _, by omega, by simp [List.range_succ]⟩
    · rw [if_neg hstop]
      obtain ⟨k, hk1, hk2, hk3⟩ := wait_loop_polls job fetch start (t + 3) (by omega) (by omega)
      refine ⟨k + 1, by omega, by omega, ?_⟩
      simp only [hk3, List.range_succ_eq_map, List.map_cons, List.map_map]
      refine congrArg₂ _ (by omega) ?_
      apply List.map_congr_left
      intro i _
      simp [Function.comp]
      omega
termination_by 330 - t

/-- Helper: a successful wait returns the current status of a poll at which
the job was completed. -/
theorem wait_loop_ok (job : JobRow) (fetch : Nat → List StatusRow) (start : Int) (t : Nat)
    (h3 : t % 3 = 0) (ht : t ≤ 330) (s : StatusRow)
    (h : (wait_loop job fetch start t).1 = .ok s) :
    ∃ u, t ≤ u ∧ u ≤ 330 ∧ u % 3 = 0 ∧
      is_completed (fetch u) job (start + u) = true ∧
      currentStatus (fetch u) job.uuid = some s := by
  rw [wait_loop] at h
  by_cases hc : is_completed (fetch t) job (start + t) = true
  · rw [if_pos hc] at h
    refine ⟨t, le_refl _, ht, h3, hc, ?_⟩
    cases hcs : currentStatus (fetch t) job.uuid with
    | none =>
      rw [hcs] at h
      simp [Option.elim] at h
    | some w =>
      rw [hcs] at h
      simp only [Option.elim] at h
      cases h
      rfl
  · rw [if_neg hc] at h
    by_cases hstop : 330 ≤ t
    · rw [if_pos hstop] at h
      simp at h
    · rw [if_neg hstop] at h
      obtain ⟨u, hu1, hu2, hu3, hu4, hu5⟩ :=
        wait_loop_ok job fetch start (t + 3) (by omega) (by omega) s (by simpa using h)
      exact ⟨u, by omega, hu2, hu3, hu4, hu5⟩
termination_by 330 - t

/-- Helper: the wait raises `JobNotFinishedError` exactly when no poll up to
the timeout observes a completed job. -/
theorem wait_loop_error (job : JobRow) (fetch : Nat → List StatusRow) (start : Int) (t : Nat)
    (h3 : t % 3 = 0) (ht : t ≤ 330) :
    (wait_loop job fetch start t).1 = .error () ↔
      ∀ u, t ≤ u → u ≤ 330 → u % 3 = 0 →
        is_completed (fetch u) job (start + u) = false := by
  rw [wait_loop]
  by_cases hc : is_completed (fetch t) job (start + t) = true
  · rw [if_pos hc]
    have hsome : ∃ w, currentStatus (fetch t) job.uuid = some w := by
      rw [is_completed, is_completed?] at hc
      cases hcs : currentStatus (fetch t) job.uuid with
      | none => rw [hcs] at hc; simp at hc
      | some w => exact ⟨w, rfl⟩
    obtain ⟨w, hw⟩ := hsome
    rw [hw]
    constructor
    · intro h
      simp [Option.elim] at h
    · intro hall
      exact absurd (hall t (le_refl _) ht h3) (by simp [hc])
  · rw [if_neg hc]
    have hcf : is_completed (fetch t) job (start + t) = false := by
      simpa using hc
    by_cases hstop : 330 ≤ t
    · rw [if_pos hstop]
      simp only [true_iff]
      intro u hu1 hu2 hu3
      have : u = t := by omega
      subst this
      exact hcf
    · rw [if_neg hstop]
      have ih := wait_loop_error job fetch start (t + 3) (by omega) (by omega)
      simp only at ih ⊢
      rw [ih]
      constructor
      · intro hall u hu1 hu2 hu3
        by_cases hut : u = t
        · subst hut; exact hcf
        · exact hall u (by omega) hu2 hu3
      · intro hall u hu1 hu2 hu3
        exact hall u (by omega) hu2 hu3
termination_by 330 - t

/-- C8: `wait_completed` re-fetches the job each iteration and invokes the
poll hook at times 0, 3, 6, ... bounded by the 330-second job timeout; it
returns the job's current status as soon as a poll observes the job
completed, and it raises `JobNotFinishedError` — never returning a partial
status — exactly when no poll within the timeout observes completion. -/
theorem wait_completed_spec (job : JobRow) (fetch : Nat → List StatusRow) (start : Int) :
    (∀ s, (wait_completed job fetch start).1 = .ok s →
      ∃ u, u ≤ 330 ∧ u % 3 = 0 ∧ is_completed (fetch u) job (start + u) = true ∧
        currentStatus (fetch u) job.uuid = some s) ∧
    ((wait_completed job fetch start).1 = .error () ↔
      ∀ u, u ≤ 330 → u % 3 = 0 → is_completed (fetch u) job (start + u) = false) ∧
    (∃ k, 1 ≤ k ∧ 3 * (k - 1) ≤ 330 ∧
      (wait_completed job fetch start).2 = (List.range k).map fun i => 3 * i) := by
  refine ⟨fun s h => ?_, ?_, ?_⟩
  · obtain ⟨u, _, hu2, hu3, hu4, hu5⟩ := wait_loop_ok job fetch start 0 rfl (by omega) s h
    exact ⟨u, hu2, hu3, hu4, hu5⟩
  · rw [wait_completed, wait_loop_error job fetch start 0 rfl (by omega)]
    constructor
    · intro hall u hu2 hu3
      exact hall u (Nat.zero_le _) hu2 hu3
    · intro hall u _ hu2 hu3
      exact hall u hu2 hu3
  · obtain ⟨k, hk1, hk2, hk3⟩ := wait_loop_polls job fetch start 0 rfl (by omega)
    refine ⟨k, hk1, by omega, ?_⟩
    rw [wait_completed, hk3]
    apply List.map_congr_left
    intro i _
    omega

/-- C8 (witness): for a job whose status history stays SENT at every poll,
the wait raises `JobNotFinishedError` rather than returning a status. -/
theorem wait_completed_spec_witness :
    (∀ u : Nat, u ≤ 330 → u % 3 = 0 →
      is_completed ((fun _ => [⟨7, .sent, 0⟩]) u) ⟨7, 1, none, (0 : Int)⟩ ((0 : Int) + u) = false) ∧
    (wait_completed ⟨7, 1, none, 0⟩ (fun _ => [⟨7, .sent, 0⟩]) 0).1 = .error () := by
  have hall : ∀ u : Nat, u ≤ 330 → u % 3 = 0 →
      is_completed ((fun _ => [⟨7, .sent, 0⟩]) u) ⟨7, 1, none, (0 : Int)⟩ ((0 : Int) + u) = false := by
    intro u hu h3
    have hcs : currentStatus [⟨7, .sent, 0⟩] 7 = some ⟨7, .sent, 0⟩ := rfl
    simp [is_completed, is_completed?, hcs, JOB_TIMEOUT, FINAL_STATUS_VALUES]
    omega
  exact ⟨hall,
    ((wait_completed_spec ⟨7, 1, none, 0⟩ (fun _ => [⟨7, .sent, 0⟩]) 0).2.1).mpr hall⟩

/-- C9: `evict_signature_info` never deletes anything: on every database
state it fails with Django's `FieldError`, because it filters on a
`created_at` column that the `SignatureInfo` table does not have. -/
theorem evict_signature_info_field_error (rows : List SignatureInfoRow) (now : Int) :
    evict_signature_info rows now =
      .error "FieldError: cannot resolve keyword created_at into field" := rfl

/-- C10: a successfully created job carries its initial SENT status row,
written in the same transaction; hence every persisted job keeps at least
one status row and a well-defined current status. -/
theorem createJob_status_exists (db : Db) (req : JobRequest) (uuid : Nat) (now : Int) (db' : Db)
    (hok : createJob db req uuid now = .ok db')
    (hw : ∀ j ∈ db.jobs, ∃ s ∈ db.statuses, s.job_uuid = j.uuid) :
    (∃ s ∈ db'.statuses, s.job_uuid = uuid ∧ s.status = .sent) ∧
    (∀ j ∈ db'.jobs, ∃ s ∈ db'.statuses, s.job_uuid = j.uuid) ∧
    (∀ j ∈ db'.jobs, (currentStatus db'.statuses j.uuid).isSome = true) := by
  have hshape : db'.statuses = db.statuses ++ [⟨uuid, .sent, now⟩] ∧
      ∃ vid : Nat, ∃ mid : Option Nat, db'.jobs = db.jobs ++ [⟨uuid, vid, mid, now⟩] := by
    simp only [createJob] at hok
    split at hok
    · exact absurd hok (by simp)
    · exact absurd hok (by simp)
    next v hv =>
      split at hok
      · cases hok
        exact ⟨rfl, v.id, none, rfl⟩
      · split at hok
        · exact absurd hok (by simp)
        next m hm =>
          cases hok
          exact ⟨rfl, v.id, some m.id, rfl⟩
  obtain ⟨hst, vid, mid, hjobs⟩ := hshape
  have hmain : ∀ j ∈ db'.jobs, ∃ s ∈ db'.statuses, s.job_uuid = j.uuid := by
    intro j hj
    rw [hjobs] at hj
    rcases List.mem_append.mp hj with hold | hnew
    · obtain ⟨s, hs, hsj⟩ := hw j hold
      exact ⟨s, by rw [hst]; exact List.mem_append_left _ hs, hsj⟩
    · rcases List.mem_singleton.mp hnew with rfl
      exact ⟨⟨uuid, .sent, now⟩, by rw [hst]; exact List.mem_append_right _ (List.mem_singleton.mpr rfl), rfl⟩
  refine ⟨?_, hmain, fun j hj => currentStatus_isSome (hmain j hj)⟩
  exact ⟨⟨uuid, .sent, now⟩, by rw [hst]; exact List.mem_append_right _ (List.mem_singleton.mpr rfl),
    rfl, rfl⟩

/-- C10 (witness): creating job 99 on the two-miner state succeeds and the
new state has a SENT status row for job 99. -/
theorem createJob_status_exists_witness :
    createJob dbMiners plainRequest 99 1000 = .ok dbMinersAfter ∧
    ∃ s ∈ dbMinersAfter.statuses, s.job_uuid = 99 ∧ s.status = .sent :=
  ⟨rfl,
    (createJob_status_exists dbMiners plainRequest 99 1000 dbMinersAfter rfl (by decide)).1⟩

end Facilitator
